import Mathlib

/-
Verification development for the kss repository (a KOReader progress-sync
server, `kss.py`) and its two fingerprinting utilities
(`example/partial_md5.py`, `example/md5name.py`).

Modelling conventions:
* A byte stream (Python `BinaryIO`) is a `ByteStream`: the full byte content
  as a `List Nat` plus the current position.  `read`/`seek` are `sread`/`sseek`.
* Python's `hashlib.md5` accumulator is modelled by the exact sequence of
  bytes fed to it: `m = md5()` is `[]`, `m.update(s)` is `· ++ s`, and
  `m.hexdigest()` is an abstract function `h : List Nat -> A` applied to the
  accumulated bytes.  (The MD5 compression function itself is library code
  outside this repository; every claim here is about which bytes are hashed.)
* The Flask service is modelled as pure request handlers over a
  `ServerState`: `auth` maps a username to the parsed content of its
  `auth.json`, `progress` maps (user, document) to the parsed content of the
  stored progress JSON file.  JSON values are `JVal`, JSON objects are
  association lists `List (String × JVal)` in insertion order, matching
  Python dict semantics for the operations used (`get`, `setdefault`,
  item assignment).
-/

/-! ## Byte streams (Python `BinaryIO`) -/

structure ByteStream where
  data : List Nat
  pos : Nat

/-- `file.read(n)`: the next `n` bytes (fewer at end of file) and the
advanced stream. -/
def sread (f : ByteStream) (n : Nat) : List Nat × ByteStream :=
  let s := (f.data.drop f.pos).take n
  (s, { f with pos := f.pos + s.length })

/-- `file.seek(off, 0)`: absolute seek. -/
def sseek (f : ByteStream) (off : Nat) : ByteStream :=
  { f with pos := off }

/-! ## `example/partial_md5.py` -/

/-- The `for i in range(0, 10)` loop of `partial_md5`: seek to
`step << (2*i)`, read up to `size` bytes, stop when a read yields no bytes,
otherwise accumulate and continue.  `acc` is the bytes fed to the MD5
accumulator so far, `fuel` is the number of loop iterations left. -/
def partial_md5_loop (step size : Nat) (f : ByteStream) (acc : List Nat)
    (i fuel : Nat) : List Nat :=
  match fuel with
  | 0 => acc
  | fuel' + 1 =>
    let f1 := sseek f (step <<< (2 * i))
    let r := sread f1 size
    if r.1 = [] then acc
    else partial_md5_loop step size r.2 (acc ++ r.1) (i + 1) fuel'

/-- `partial_md5(file, step, size)` from `example/partial_md5.py`.
`h` stands for the final `m.hexdigest()` over the accumulated bytes. -/
def partial_md5 {α : Type} (h : List Nat → α) (f : ByteStream)
    (step size : Nat) : α :=
  let r := sread f size
  h (partial_md5_loop step size r.2 r.1 0 10)

/-- The sparse-sampling fingerprint of a document's content: `partial_md5`
applied to a fresh stream positioned at offset 0 (as the CLI does). -/
def sparseDigest {α : Type} (h : List Nat → α) (data : List Nat)
    (step size : Nat) : α :=
  partial_md5 h ⟨data, 0⟩ step size

/-! ## `example/md5name.py` -/

/-- The `while True` read loop of `md5` in `example/md5name.py`: read 4096
bytes at a time, stop at the first empty read, accumulating everything. -/
def md5_loop (f : ByteStream) (acc : List Nat) : List Nat :=
  let r := sread f 4096
  if h : r.1 = [] then acc
  else md5_loop r.2 (acc ++ r.1)
termination_by f.data.length - f.pos
decreasing_by
  simp only [sread] at *
  have hne : (f.data.drop f.pos).take 4096 ≠ [] := h
  have h1 : f.data.drop f.pos ≠ [] := by
    intro hd; exact hne (by simp [hd])
  have h2 : f.pos < f.data.length := by
    by_contra hc
    exact h1 (List.drop_eq_nil_iff.mpr (Nat.le_of_not_lt hc))
  have h3 : 0 < ((f.data.drop f.pos).take 4096).length :=
    List.length_pos.mpr hne
  omega

/-- `md5(file)` from `example/md5name.py`, with the digest abstracted as
`h` over the accumulated bytes. -/
def md5 {α : Type} (h : List Nat → α) (f : ByteStream) : α :=
  h (md5_loop f [])

/-- The full-content fingerprint of a byte sequence: `md5` applied to a
fresh stream positioned at offset 0. -/
def fullDigest {α : Type} (h : List Nat → α) (data : List Nat) : α :=
  md5 h ⟨data, 0⟩

/-! ## Spec-side definition of the sparse digest (for claim C1)

These definitions follow the spec's words, not the source: pure samples at
offset `step << (2*i)`, no stream state. -/

/-- The window of `size` bytes starting at offset `off`. -/
def sampleAt (data : List Nat) (off size : Nat) : List Nat :=
  (data.drop off).take size

/-- Modelled from the spec: "for i = 0..9, seek to `step << (2*i)`, read up
to `sampleSize` bytes; if the read yields zero bytes, stop the loop (do not
accumulate further); otherwise accumulate and continue". -/
def sparseSpecLoop (data : List Nat) (step size i fuel : Nat) : List Nat :=
  match fuel with
  | 0 => []
  | fuel' + 1 =>
    let sample := sampleAt data (step <<< (2 * i)) size
    if sample = [] then []
    else sample ++ sparseSpecLoop data step size (i + 1) fuel'

/-- Modelled from the spec: "read `sampleSize` bytes from offset 0 into the
accumulator" followed by the sampling loop. -/
def sparseSpecInput (data : List Nat) (step size : Nat) : List Nat :=
  sampleAt data 0 size ++ sparseSpecLoop data step size 0 10

/-- Modelled from the spec: the final accumulated digest of the sparse
sampling algorithm as the spec describes it. -/
def sparseDigestSpec {α : Type} (h : List Nat → α) (data : List Nat)
    (step size : Nat) : α :=
  h (sparseSpecInput data step size)

/-! ## JSON values and Python coercions (`kss.py`) -/

/-- A JSON scalar value as handled by `kss.py` (the fields the service reads
are scalars; nested arrays/objects never reach the modelled paths). -/
inductive JVal where
  | null
  | bool (b : Bool)
  | num (q : Rat)
  | str (s : String)
deriving DecidableEq

/-- Python truthiness of a JSON value (`if v:`). -/
def truthy : JVal → Bool
  | .null => false
  | .bool b => b
  | .num q => if q = 0 then false else true
  | .str s => if s = "" then false else true

def isDigitCh (c : Char) : Bool := decide ('0' ≤ c) && decide (c ≤ '9')

def digitsVal (cs : List Char) : Nat :=
  cs.foldl (fun a c => 10 * a + (c.toNat - '0'.toNat)) 0

/-- ASCII whitespace, as stripped by Python numeric conversions. -/
def isSpaceCh (c : Char) : Bool :=
  decide (c = ' ') || decide (c = '\t') || decide (c = '\n') ||
    decide (c = '\r')

/-- Strip leading and trailing whitespace from a character list. -/
def trimChars (cs : List Char) : List Char :=
  ((cs.dropWhile isSpaceCh).reverse.dropWhile isSpaceCh).reverse

/-- Split a leading sign off a character list; `1` or `-1` and the rest. -/
def splitSign (cs : List Char) : Int × List Char :=
  match cs with
  | '-' :: r => (-1, r)
  | '+' :: r => (1, r)
  | _ => (1, cs)

/-- The rational named by sign, integer digits, fraction digits and a
(signed) decimal exponent. -/
def decimalRat (sgn : Int) (ip fp : List Char) (e : Int) : Rat :=
  ((sgn * (digitsVal ip * 10 ^ fp.length + digitsVal fp) : Int) : Rat)
    * (10 : Rat) ^ (e - fp.length : Int)

/-- Modelled from the spec: Python's `float(str)` on plain decimal literals
("coerce `percentage` to a numeric type if present") — optional sign,
decimal digits with optional fraction and exponent, surrounding whitespace
stripped.  Special forms (`inf`, `nan`, underscore separators) are not
modelled; no claim depends on them. -/
def parseFloatStr (s : String) : Option Rat :=
  let cs := trimChars s.data
  let sc := splitSign cs
  let ip := sc.2.takeWhile isDigitCh
  let cs2 := sc.2.dropWhile isDigitCh
  let fsplit : List Char × List Char :=
    match cs2 with
    | '.' :: r => (r.takeWhile isDigitCh, r.dropWhile isDigitCh)
    | _ => ([], cs2)
  if ip = [] ∧ fsplit.1 = [] then none
  else
    match fsplit.2 with
    | [] => some (decimalRat sc.1 ip fsplit.1 0)
    | e :: r =>
      if e = 'e' ∨ e = 'E' then
        let esc := splitSign r
        let ed := esc.2.takeWhile isDigitCh
        if ed = [] ∨ esc.2.dropWhile isDigitCh ≠ [] then none
        else some (decimalRat sc.1 ip fsplit.1 (esc.1 * digitsVal ed))
      else none

/-- Modelled from the spec: Python's `int(str)` — optional sign and decimal
digits only, surrounding whitespace stripped. -/
def parseIntStr (s : String) : Option Int :=
  let cs := trimChars s.data
  let sc := splitSign cs
  if sc.2 ≠ [] ∧ sc.2.all isDigitCh then some (sc.1 * digitsVal sc.2)
  else none

/-- Python `float(v)` for a JSON value: numbers pass through, booleans map
to 0/1, strings are parsed, `None` raises (here: `none`). -/
def pyFloat : JVal → Option Rat
  | .num q => some q
  | .bool b => some (if b then 1 else 0)
  | .str s => parseFloatStr s
  | .null => none

/-- Truncation of a rational toward zero, as Python `int(float)` does. -/
def ratTrunc (q : Rat) : Int := q.num.tdiv (q.den : Int)

/-- Python `int(v)` for a JSON value. -/
def pyInt : JVal → Option Int
  | .num q => some (ratTrunc q)
  | .bool b => some (if b then 1 else 0)
  | .str s => parseIntStr s
  | .null => none

/-- Python `f"{v}"` for a JSON value; only the string case is exercised by
the service (document fingerprints are strings). -/
def pyStr : JVal → String
  | .str s => s
  | .num q => toString q
  | .bool b => if b then "True" else "False"
  | .null => "None"

/-! ## JSON objects as association lists (Python dicts) -/

/-- `js.get(k, None)` on a dict with unique keys. -/
def jget (js : List (String × JVal)) (k : String) : Option JVal :=
  js.lookup k

/-- `js[k] = v`: replace in place if the key exists, else append (Python
dict item assignment preserves insertion order). -/
def jset (js : List (String × JVal)) (k : String) (v : JVal) :
    List (String × JVal) :=
  if (js.lookup k).isSome then
    js.map (fun p => if p.1 = k then (k, v) else p)
  else js ++ [(k, v)]

/-- `js.setdefault(k, None)`. -/
def jsetdefault (js : List (String × JVal)) (k : String) :
    List (String × JVal) :=
  if (js.lookup k).isSome then js else js ++ [(k, JVal.null)]

/-! ## Server state and responses (`kss.py`) -/

/-- The parsed content of a user's `auth.json`:
`{"x-auth-user": ..., "x-auth-key": ...}` as written by `register`. -/
structure AuthRecord where
  authUser : String
  authKey : String
deriving DecidableEq

/-- The file system state the handlers read and write: `auth u` is the
content of `<root>/u/auth.json` (if present), `progress u d` the content of
`<root>/u/<d>.json` (if present). -/
structure ServerState where
  auth : String → Option AuthRecord
  progress : String → String → Option (List (String × JVal))

/-- A handler's HTTP result: status code and JSON body (an object in
insertion order, as `jsonify` serializes it). -/
structure Resp where
  httpCode : Nat
  body : List (String × JVal)
deriving DecidableEq

/-- `kss_error(http_code, message=..., code=...)`. -/
def kssError (httpCode : Nat) (message : String) (code : Nat) : Resp :=
  { httpCode := httpCode
    body := [("message", .str message), ("code", .num code)] }

/-! ## Request handlers (`kss.py`) -/

/-- `register` (`POST /users/create`).  `disabled` is
`REGISTRATION_DISABLED`; `body` is `none` when the request is not JSON,
otherwise the parsed object.  Returns the response and the new state. -/
def register (disabled : Bool) (st : ServerState)
    (body : Option (List (String × JVal))) : Resp × ServerState :=
  if disabled then (kssError 403 "User registration disabled" 3001, st)
  else
    match body with
    | none => (kssError 403 "Invalid request" 2003, st)
    | some js =>
      -- user = js.get("username", ""); if user and isinstance(user, str)
      match (jget js "username").getD (.str "") with
      | .str user =>
        if user = "" then (kssError 403 "Invalid request" 2003, st)
        else
          -- password_md5 = js.get("password", "")
          match (jget js "password").getD (.str "") with
          | .str password =>
            if password = "" then (kssError 403 "Invalid request" 2003, st)
            else
              match st.auth user with
              | some _ =>
                (kssError 402 "Username is already registered" 2002, st)
              | none =>
                ({ httpCode := 201, body := [("username", .str user)] },
                 { st with
                    auth := fun u =>
                      if u = user then
                        some { authUser := user, authKey := password }
                      else st.auth u })
          | _ => (kssError 403 "Invalid request" 2003, st)
      | _ => (kssError 403 "Invalid request" 2003, st)

/-- `kss_auth()`: compare the `x-auth-user` / `x-auth-key` headers (absent
headers are `none`) with the user's `auth.json`.  `if not user` in the
source treats an empty header value like a missing one. -/
def kss_auth (st : ServerState) (hUser hKey : Option String) :
    Option String :=
  match hUser with
  | none => none
  | some user =>
    if user = "" then none
    else
      match hKey with
      | none => none
      | some key =>
        if key = "" then none
        else
          match st.auth user with
          | none => none
          | some a =>
            if a.authUser = user ∧ a.authKey = key then some user else none

/-- The percentage-coercion step of `push`: `if percentage :=
js.get("percentage", None): try: js["percentage"] = float(percentage)
except: js["percentage"] = None`. -/
def pctStep (js : List (String × JVal)) : List (String × JVal) :=
  match jget js "percentage" with
  | some p =>
    if truthy p then
      match pyFloat p with
      | some q => jset js "percentage" (.num q)
      | none => jset js "percentage" .null
    else js
  | none => js

/-- The body-transformation of `push`: coerce a truthy `percentage` (set it
to null when `float` raises), `setdefault` the three optional fields to
null, then overwrite `timestamp` with the server time. -/
def pushTransform (js : List (String × JVal)) (now : Int) :
    List (String × JVal) :=
  jset (jsetdefault (jsetdefault (jsetdefault (pctStep js) "progress")
    "device") "device_id") "timestamp" (.num (now : Rat))

/-- `push` (`PUT /syncs/progress`).  `now` is `int(time())` at the moment of
the call. -/
def push (st : ServerState) (hUser hKey : Option String)
    (body : Option (List (String × JVal))) (now : Int) : Resp × ServerState :=
  match kss_auth st hUser hKey with
  | none => (kssError 401 "Unauthorized" 2001, st)
  | some user =>
    match body with
    | none => (kssError 403 "Invalid request" 2003, st)
    | some js =>
      -- if document := js.get("document", None):
      match jget js "document" with
      | some document =>
        if truthy document then
          let stored := pushTransform js now
          ({ httpCode := 200
             body := [("document", document),
                      ("timestamp", .num (now : Rat))] },
           { st with
              progress := fun u d =>
                if u = user ∧ d = pyStr document then some stored
                else st.progress u d })
        else (kssError 403 "Field \x27document\x27 not provided." 2004, st)
      | none => (kssError 403 "Field \x27document\x27 not provided." 2004, st)

/-- One step of `pull`'s response assembly: `if percentage :=
js.get("percentage", None): try: res["percentage"] = float(percentage)
except: pass` — the field is added to `res` only when truthy and
parsable. -/
def pullStepPct (js : List (String × JVal)) (res : List (String × JVal)) :
    List (String × JVal) :=
  match jget js "percentage" with
  | some p =>
    if truthy p then
      match pyFloat p with
      | some q => res ++ [("percentage", .num q)]
      | none => res
    else res
  | none => res

/-- One step of `pull`'s response assembly for `progress`, `device` or
`device_id`: the field is copied verbatim into `res` only when truthy. -/
def pullStepOpt (js : List (String × JVal)) (res : List (String × JVal))
    (k : String) : List (String × JVal) :=
  match jget js k with
  | some p => if truthy p then res ++ [(k, p)] else res
  | none => res

/-- One step of `pull`'s response assembly: `if timestamp :=
js.get("timestamp", None): try: res["timestamp"] = int(timestamp)
except: pass`. -/
def pullStepTs (js : List (String × JVal)) (res : List (String × JVal)) :
    List (String × JVal) :=
  match jget js "timestamp" with
  | some t =>
    if truthy t then
      match pyInt t with
      | some n => res ++ [("timestamp", .num (n : Rat))]
      | none => res
    else res
  | none => res

/-- The response-assembly of `pull` for a stored record: starting from
`res = {}`, each field is added in order only when truthy (and, for
`percentage`/`timestamp`, when the numeric coercion succeeds). -/
def pullAssemble (js : List (String × JVal)) : List (String × JVal) :=
  pullStepTs js (pullStepOpt js (pullStepOpt js
    (pullStepOpt js (pullStepPct js []) "progress") "device") "device_id")

/-- `pull` (`GET /syncs/progress/<document>`).  Read-only: returns only the
response. -/
def pull (st : ServerState) (hUser hKey : Option String)
    (document : String) : Resp :=
  match kss_auth st hUser hKey with
  | none => kssError 401 "Unauthorized" 2001
  | some user =>
    match st.progress user document with
    | none => { httpCode := 200, body := [("document", .str document)] }
    | some js => { httpCode := 200, body := pullAssemble js }

/-! ## Concrete states for witnesses and counterexamples -/

/-- A state with one registered user `alice` (key `k1`) and no progress. -/
def stAlice : ServerState :=
  { auth := fun u =>
      if u = "alice" then some { authUser := "alice", authKey := "k1" }
      else none
    progress := fun _ _ => none }

/-- `stAlice` plus a stored record `{"percentage": 0}` for document `d1`. -/
def stPct0 : ServerState :=
  { auth := stAlice.auth
    progress := fun u d =>
      if u = "alice" ∧ d = "d1" then some [("percentage", JVal.num 0)]
      else none }

/-- `stAlice` plus a stored record `{"percentage": 2}` for document `d2`. -/
def stHalf : ServerState :=
  { auth := stAlice.auth
    progress := fun u d =>
      if u = "alice" ∧ d = "d2" then some [("percentage", JVal.num 2)]
      else none }

/-- The invariant `register` maintains on the credential store: an
`auth.json` only ever holds the (truthy) username it is keyed by and a
truthy password digest. -/
def credOK (st : ServerState) : Prop :=
  ∀ u a, st.auth u = some a → a.authUser = u ∧ u ≠ "" ∧ a.authKey ≠ ""

/-! ## Lemmas: the sparse digest agrees with its spec description -/

theorem partial_md5_loop_eq_spec (step size : Nat) (f : ByteStream)
    (acc : List Nat) (i fuel : Nat) :
    partial_md5_loop step size f acc i fuel =
      acc ++ sparseSpecLoop f.data step size i fuel := by
  induction fuel generalizing f acc i with
  | zero => simp [partial_md5_loop, sparseSpecLoop]
  | succ fuel ih =>
    simp only [partial_md5_loop, sparseSpecLoop, sseek, sread, sampleAt]
    by_cases hs : (f.data.drop (step <<< (2 * i))).take size = []
    · simp [hs]
    · simp only [hs, if_neg, ite_false]
      rw [ih]
      simp [List.append_assoc]

theorem sparseDigest_eq_spec {α : Type} (h : List Nat → α) (data : List Nat)
    (step size : Nat) :
    sparseDigest h data step size = sparseDigestSpec h data step size := by
  unfold sparseDigest partial_md5 sparseDigestSpec sparseSpecInput
  simp only [sread]
  rw [partial_md5_loop_eq_spec]
  simp [sampleAt]

theorem md5_loop_eq_aux (n : Nat) : ∀ (f : ByteStream) (acc : List Nat),
    f.data.length - f.pos ≤ n → md5_loop f acc = acc ++ f.data.drop f.pos := by
  induction n with
  | zero =>
    intro f acc hn
    have hdrop : f.data.drop f.pos = [] :=
      List.drop_eq_nil_iff.mpr (by omega)
    rw [md5_loop]
    simp [sread, hdrop]
  | succ n ih =>
    intro f acc hn
    rw [md5_loop]
    by_cases hs : (f.data.drop f.pos).take 4096 = []
    · simp only [sread, hs, dite_true]
      rcases List.take_eq_nil_iff.mp hs with h0 | hnil
      · omega
      · rw [hnil]; simp
    · have hxs : f.data.drop f.pos ≠ [] := by
        intro hd; exact hs (by simp [hd])
      have hpos : f.pos < f.data.length := by
        by_contra hc
        exact hxs (List.drop_eq_nil_iff.mpr (Nat.le_of_not_lt hc))
      have hslen : 0 < ((f.data.drop f.pos).take 4096).length :=
        List.length_pos.mpr hs
      simp only [sread, hs, dite_false]
      rw [ih _ _ (by simp only [sread]; omega)]
      simp only [sread]
      have key : (f.data.drop f.pos).take 4096 ++
          f.data.drop (f.pos + ((f.data.drop f.pos).take 4096).length)
          = f.data.drop f.pos := by
        rw [← List.drop_drop]
        by_cases hle : (f.data.drop f.pos).length ≤ 4096
        · rw [List.take_of_length_le hle]; simp; omega
        · have hlen : ((f.data.drop f.pos).take 4096).length = 4096 := by
            simp only [List.length_take]; omega
          rw [hlen, List.take_append_drop]
      rw [List.append_assoc, key]

theorem md5_loop_eq (f : ByteStream) (acc : List Nat) :
    md5_loop f acc = acc ++ f.data.drop f.pos :=
  md5_loop_eq_aux (f.data.length - f.pos) f acc (Nat.le_refl _)

theorem fullDigest_eq {α : Type} (h : List Nat → α) (data : List Nat) :
    fullDigest h data = h data := by
  unfold fullDigest md5
  rw [md5_loop_eq]
  simp

/-! ## Lemmas: which bytes the sparse digest depends on -/

theorem sparseSpecLoop_succ (data : List Nat) (step size i fuel : Nat) :
    sparseSpecLoop data step size i (fuel + 1) =
      if sampleAt data (step <<< (2 * i)) size = [] then []
      else sampleAt data (step <<< (2 * i)) size ++
        sparseSpecLoop data step size (i + 1) fuel := rfl

theorem getElem?_sampleAt (data : List Nat) (off size j : Nat) :
    (sampleAt data off size)[j]? =
      if j < size then data[off + j]? else none := by
  unfold sampleAt
  by_cases hj : j < size
  · rw [if_pos hj, List.getElem?_take_of_lt hj, List.getElem?_drop]
  · rw [if_neg hj]
    apply List.getElem?_eq_none
    simp only [List.length_take, List.length_drop]
    omega

theorem length_sampleAt (data : List Nat) (off size : Nat) :
    (sampleAt data off size).length = min size (data.length - off) := by
  simp [sampleAt]

theorem sampleAt_congr {f g : List Nat} (off size : Nat)
    (h : ∀ j, j < size → f[off + j]? = g[off + j]?) :
    sampleAt f off size = sampleAt g off size := by
  apply List.ext_getElem?
  intro n
  rw [getElem?_sampleAt, getElem?_sampleAt]
  by_cases hn : n < size
  · rw [if_pos hn, if_pos hn]
    exact h n hn
  · rw [if_neg hn, if_neg hn]

theorem shiftLeft_two_mul (step i : Nat) : step <<< (2 * i) = step * 4 ^ i := by
  rw [Nat.shiftLeft_eq, Nat.pow_mul]

theorem sparseSpecLoop_congr {f g : List Nat} (step size : Nat)
    (h : ∀ i, i < 10 → ∀ j, j < size →
      f[step * 4 ^ i + j]? = g[step * 4 ^ i + j]?) :
    ∀ fuel i, i + fuel ≤ 10 →
      sparseSpecLoop f step size i fuel = sparseSpecLoop g step size i fuel := by
  intro fuel
  induction fuel with
  | zero => intro i _; rfl
  | succ fuel ih =>
    intro i hif
    have hsamp : sampleAt f (step <<< (2 * i)) size
        = sampleAt g (step <<< (2 * i)) size := by
      rw [shiftLeft_two_mul]
      exact sampleAt_congr _ _ (h i (by omega))
    rw [sparseSpecLoop_succ, sparseSpecLoop_succ, hsamp,
      ih (i + 1) (by omega)]

theorem sparseSpecInput_congr {f g : List Nat} (step size : Nat)
    (h0 : ∀ j, j < size → f[j]? = g[j]?)
    (h : ∀ i, i < 10 → ∀ j, j < size →
      f[step * 4 ^ i + j]? = g[step * 4 ^ i + j]?) :
    sparseSpecInput f step size = sparseSpecInput g step size := by
  unfold sparseSpecInput
  rw [sampleAt_congr 0 size (fun j hj => by simpa using h0 j hj),
    sparseSpecLoop_congr step size h 10 0 (by omega)]

theorem sampleAt_set_outside {f : List Nat} {p b off size : Nat}
    (hout : off + size ≤ p) :
    sampleAt (f.set p b) off size = sampleAt f off size := by
  apply sampleAt_congr
  intro j hj
  rw [List.getElem?_set_ne (by omega)]

theorem sampleAt_set_ne_inside {f : List Nat} {p b off size : Nat}
    (h1 : off ≤ p) (h2 : p < off + size) (hp : p < f.length)
    (hb : f[p]? ≠ some b) :
    sampleAt (f.set p b) off size ≠ sampleAt f off size := by
  intro he
  have hidx := congrArg (fun l => l[p - off]?) he
  simp only [getElem?_sampleAt] at hidx
  rw [if_pos (by omega), if_pos (by omega)] at hidx
  have hpo : off + (p - off) = p := by omega
  rw [hpo, List.getElem?_set_self hp] at hidx
  exact hb hidx.symm

theorem sampleAt_ne_nil {f : List Nat} {off size : Nat}
    (hoff : off < f.length) (hsize : 0 < size) :
    sampleAt f off size ≠ [] := by
  intro he
  have hl := congrArg List.length he
  rw [length_sampleAt] at hl
  simp only [List.length_nil] at hl
  omega

theorem window_mono {i m : Nat} (h : i < m) :
    1024 * 4 ^ i + 1024 ≤ 1024 * 4 ^ m := by
  have h2 : 4 ^ (i + 1) ≤ 4 ^ m := Nat.pow_le_pow_right (by omega) h
  have h3 : 1 ≤ 4 ^ i := Nat.one_le_pow _ _ (by omega)
  have h4 : 4 ^ (i + 1) = 4 ^ i * 4 := pow_succ 4 i
  omega

theorem sparseSpecLoop_set_ne (f : List Nat) (p b : Nat)
    (hp : p < f.length) (hb : f[p]? ≠ some b)
    (m : Nat) (hm : m < 10) (hlo : 1024 * 4 ^ m ≤ p)
    (hhi : p < 1024 * 4 ^ m + 1024) :
    ∀ fuel i, i ≤ m → m < i + fuel →
      sparseSpecLoop (f.set p b) 1024 1024 i fuel ≠
        sparseSpecLoop f 1024 1024 i fuel := by
  intro fuel
  induction fuel with
  | zero => intro i h1 h2; omega
  | succ fuel ih =>
    intro i h1 h2
    have hfoff : 1024 * 4 ^ i ≤ p := by
      rcases Nat.lt_or_ge i m with hi | hi
      · have := window_mono hi; omega
      · have heq : i = m := by omega
        rw [heq]; exact hlo
    have hofflt : 1024 * 4 ^ i < f.length := by omega
    rw [sparseSpecLoop_succ, sparseSpecLoop_succ, shiftLeft_two_mul]
    rcases Nat.eq_or_lt_of_le h1 with heq | hi
    · -- the mutated byte lies in this window: the two samples differ
      subst heq
      have hne' : sampleAt (f.set p b) (1024 * 4 ^ i) 1024 ≠ [] := by
        apply sampleAt_ne_nil _ (by omega)
        rw [List.length_set]; omega
      have hne : sampleAt f (1024 * 4 ^ i) 1024 ≠ [] :=
        sampleAt_ne_nil (by omega) (by omega)
      rw [if_neg hne', if_neg hne]
      intro he
      have hlen : (sampleAt (f.set p b) (1024 * 4 ^ i) 1024).length
          = (sampleAt f (1024 * 4 ^ i) 1024).length := by
        rw [length_sampleAt, length_sampleAt, List.length_set]
      exact sampleAt_set_ne_inside hfoff (by omega) hp hb
        (List.append_inj he hlen).1
    · -- the mutated byte lies in a later window: samples here agree
      have hout : 1024 * 4 ^ i + 1024 ≤ p := by
        have := window_mono hi; omega
      rw [sampleAt_set_outside hout]
      by_cases hs : sampleAt f (1024 * 4 ^ i) 1024 = []
      · exact absurd hs (sampleAt_ne_nil (by omega) (by omega))
      · rw [if_neg hs, if_neg hs]
        intro he
        exact ih (i + 1) (by omega) (by omega) (List.append_cancel_left he)

theorem sparseSpecInput_set_ne (f : List Nat) (p b : Nat)
    (hp : p < f.length) (hb : f[p]? ≠ some b)
    (hwin : p < 1024 ∨
      ∃ m, m < 10 ∧ 1024 * 4 ^ m ≤ p ∧ p < 1024 * 4 ^ m + 1024) :
    sparseSpecInput (f.set p b) 1024 1024 ≠ sparseSpecInput f 1024 1024 := by
  unfold sparseSpecInput
  rcases hwin with hw0 | ⟨m, hm, hlo, hhi⟩
  · -- the mutated byte lies in the initial window
    intro he
    have hlen : (sampleAt (f.set p b) 0 1024).length
        = (sampleAt f 0 1024).length := by
      rw [length_sampleAt, length_sampleAt, List.length_set]
    exact sampleAt_set_ne_inside (by omega) (by omega) hp hb
      (List.append_inj he hlen).1
  · -- the mutated byte lies in a loop window
    have h1 : 1 ≤ 4 ^ m := Nat.one_le_pow _ _ (by omega)
    have h0 : sampleAt (f.set p b) 0 1024 = sampleAt f 0 1024 :=
      sampleAt_set_outside (by omega)
    rw [h0]
    intro he
    exact sparseSpecLoop_set_ne f p b hp hb m hm hlo hhi 10 0 (by omega)
      (by omega) (List.append_cancel_left he)

theorem sparseSpecInput_short (data : List Nat) (h : data.length < 1024) :
    sparseSpecInput data 1024 1024 = data := by
  unfold sparseSpecInput
  have h0 : sampleAt data 0 1024 = data := by
    simp [sampleAt, List.take_of_length_le (by omega : data.length ≤ 1024)]
  have hs : sampleAt data (1024 <<< (2 * 0)) 1024 = [] := by
    rw [shiftLeft_two_mul]
    simp only [pow_zero, Nat.mul_one, sampleAt]
    rw [List.drop_eq_nil_iff.mpr (by omega)]
    rfl
  have hl : sparseSpecLoop data 1024 1024 0 10 = [] := by
    rw [show (10 : Nat) = 9 + 1 from rfl, sparseSpecLoop_succ, if_pos hs]
  rw [h0, hl, List.append_nil]

/-! ## Lemmas: dict operations -/

theorem lookup_map_replace (js : List (String × JVal)) (k k' : String)
    (v : JVal) :
    (js.map (fun p => if p.1 = k then (k, v) else p)).lookup k' =
      if k' = k then (js.lookup k).map (fun _ => v) else js.lookup k' := by
  induction js with
  | nil => simp
  | cons p js ih =>
    rcases p with ⟨a, w⟩
    by_cases ha : a = k
    · subst ha
      by_cases hk' : k' = a
      · subst hk'
        simp [List.lookup_cons, ih]
      · have hba : (k' == a) = false := beq_eq_false_iff_ne.mpr hk'
        simp [List.lookup_cons, hba, hk', ih]
    · by_cases hk' : k' = a
      · subst hk'
        simp [List.lookup_cons, ha, Ne.symm ha, ih]
      · have hba : (k' == a) = false := beq_eq_false_iff_ne.mpr hk'
        have hka : (k == a) = false :=
          beq_eq_false_iff_ne.mpr (fun hh => ha hh.symm)
        simp [List.lookup_cons, ha, hba, hka, ih]

theorem jget_jset_self (js : List (String × JVal)) (k : String) (v : JVal) :
    jget (jset js k v) k = some v := by
  unfold jget jset
  by_cases h : (js.lookup k).isSome
  · rw [if_pos h, lookup_map_replace, if_pos rfl]
    rcases Option.isSome_iff_exists.mp h with ⟨w, hw⟩
    rw [hw]
    rfl
  · rw [if_neg h, List.lookup_append]
    rw [Option.not_isSome_iff_eq_none.mp h]
    simp [List.lookup_cons]

theorem jget_jset_ne (js : List (String × JVal)) (k k' : String) (v : JVal)
    (hne : k' ≠ k) : jget (jset js k v) k' = jget js k' := by
  unfold jget jset
  by_cases h : (js.lookup k).isSome
  · rw [if_pos h, lookup_map_replace, if_neg hne]
  · rw [if_neg h, List.lookup_append]
    have hbeq : (k' == k) = false := beq_eq_false_iff_ne.mpr hne
    have : List.lookup k' [(k, v)] = none := by
      simp [List.lookup_cons, hbeq]
    rw [this, Option.or_none]

theorem jsetdefault_of_some (js : List (String × JVal)) (k : String)
    (w : JVal) (h : jget js k = some w) : jsetdefault js k = js := by
  unfold jsetdefault
  rw [if_pos (by simp [jget] at h; simp [h])]

theorem jget_jsetdefault_none (js : List (String × JVal)) (k : String)
    (h : jget js k = none) : jget (jsetdefault js k) k = some JVal.null := by
  unfold jsetdefault jget
  unfold jget at h
  rw [if_neg (by simp [h]), List.lookup_append, h]
  simp [List.lookup_cons]

theorem jget_jsetdefault_ne (js : List (String × JVal)) (k k' : String)
    (hne : k' ≠ k) : jget (jsetdefault js k) k' = jget js k' := by
  unfold jsetdefault jget
  by_cases h : (js.lookup k).isSome
  · rw [if_pos h]
  · rw [if_neg h, List.lookup_append]
    have hbeq : (k' == k) = false := beq_eq_false_iff_ne.mpr hne
    have : List.lookup k' [(k, JVal.null)] = none := by
      simp [List.lookup_cons, hbeq]
    rw [this, Option.or_none]

/-! ## Lemmas: what `push` stores -/

theorem pushTransform_timestamp (js : List (String × JVal)) (now : Int) :
    jget (pushTransform js now) "timestamp" = some (.num (now : Rat)) := by
  unfold pushTransform
  exact jget_jset_self _ _ _

theorem jget_pctStep_ne (js : List (String × JVal)) (k : String)
    (hne : k ≠ "percentage") : jget (pctStep js) k = jget js k := by
  unfold pctStep
  split
  · split
    · split
      · exact jget_jset_ne _ _ _ _ hne
      · exact jget_jset_ne _ _ _ _ hne
    · rfl
  · rfl

theorem pushTransform_jget_pct (js : List (String × JVal)) (now : Int) :
    jget (pushTransform js now) "percentage" = jget (pctStep js) "percentage" := by
  unfold pushTransform
  rw [jget_jset_ne _ _ _ _ (by decide), jget_jsetdefault_ne _ _ _ (by decide),
    jget_jsetdefault_ne _ _ _ (by decide), jget_jsetdefault_ne _ _ _ (by decide)]

theorem pushTransform_percentage_absent (js : List (String × JVal))
    (now : Int) (h : jget js "percentage" = none) :
    jget (pushTransform js now) "percentage" = none := by
  rw [pushTransform_jget_pct]
  simp [pctStep, h]

theorem pushTransform_percentage_falsy (js : List (String × JVal))
    (now : Int) (p : JVal) (hp : jget js "percentage" = some p)
    (ht : truthy p = false) :
    jget (pushTransform js now) "percentage" = some p := by
  rw [pushTransform_jget_pct]
  simp [pctStep, hp, ht]

theorem pushTransform_percentage_coerced (js : List (String × JVal))
    (now : Int) (p : JVal) (q : Rat) (hp : jget js "percentage" = some p)
    (ht : truthy p = true) (hq : pyFloat p = some q) :
    jget (pushTransform js now) "percentage" = some (.num q) := by
  rw [pushTransform_jget_pct]
  simp [pctStep, hp, ht, hq, jget_jset_self]

theorem pushTransform_percentage_fail (js : List (String × JVal))
    (now : Int) (p : JVal) (hp : jget js "percentage" = some p)
    (ht : truthy p = true) (hq : pyFloat p = none) :
    jget (pushTransform js now) "percentage" = some JVal.null := by
  rw [pushTransform_jget_pct]
  simp [pctStep, hp, ht, hq, jget_jset_self]

theorem pushTransform_optional_absent (js : List (String × JVal))
    (now : Int) (k : String)
    (hk : k = "progress" ∨ k = "device" ∨ k = "device_id")
    (h : jget js k = none) :
    jget (pushTransform js now) k = some JVal.null := by
  unfold pushTransform
  rcases hk with rfl | rfl | rfl
  · rw [jget_jset_ne _ _ _ _ (by decide), jget_jsetdefault_ne _ _ _
      (by decide), jget_jsetdefault_ne _ _ _ (by decide)]
    apply jget_jsetdefault_none
    rw [jget_pctStep_ne _ _ (by decide)]
    exact h
  · rw [jget_jset_ne _ _ _ _ (by decide), jget_jsetdefault_ne _ _ _
      (by decide)]
    apply jget_jsetdefault_none
    rw [jget_jsetdefault_ne _ _ _ (by decide), jget_pctStep_ne _ _ (by decide)]
    exact h
  · rw [jget_jset_ne _ _ _ _ (by decide)]
    apply jget_jsetdefault_none
    rw [jget_jsetdefault_ne _ _ _ (by decide),
      jget_jsetdefault_ne _ _ _ (by decide), jget_pctStep_ne _ _ (by decide)]
    exact h

theorem jget_jsetdefault_keep (js : List (String × JVal)) (k k' : String)
    (w : JVal) (h : jget js k' = some w) :
    jget (jsetdefault js k) k' = some w := by
  by_cases hne : k' = k
  · subst hne
    rw [jsetdefault_of_some js k' w h]
    exact h
  · rw [jget_jsetdefault_ne _ _ _ hne]
    exact h

theorem pushTransform_optional_kept (js : List (String × JVal))
    (now : Int) (k : String) (w : JVal)
    (hk : k = "progress" ∨ k = "device" ∨ k = "device_id")
    (h : jget js k = some w) :
    jget (pushTransform js now) k = some w := by
  unfold pushTransform
  have hne : k ≠ "percentage" := by
    rcases hk with rfl | rfl | rfl <;> decide
  have hts : k ≠ "timestamp" := by
    rcases hk with rfl | rfl | rfl <;> decide
  rw [jget_jset_ne _ _ _ _ hts]
  apply jget_jsetdefault_keep
  apply jget_jsetdefault_keep
  apply jget_jsetdefault_keep
  rw [jget_pctStep_ne _ _ hne]
  exact h

/-! ## Lemmas: authentication and handlers -/

theorem kss_auth_some_iff (st : ServerState) (hinv : credOK st)
    (hU hK : Option String) (u : String) :
    kss_auth st hU hK = some u ↔
      (hU = some u ∧ ∃ k a, hK = some k ∧ st.auth u = some a ∧
        a.authKey = k) := by
  constructor
  · intro h
    cases hU with
    | none => simp [kss_auth] at h
    | some user =>
      cases hK with
      | none => simp [kss_auth] at h
      | some key =>
        simp only [kss_auth] at h
        by_cases hu : user = ""
        · simp [hu] at h
        · rw [if_neg hu] at h
          by_cases hk : key = ""
          · simp [hk] at h
          · rw [if_neg hk] at h
            cases hst : st.auth user with
            | none => rw [hst] at h; simp at h
            | some a =>
              rw [hst] at h
              simp only [] at h
              by_cases hcred : a.authUser = user ∧ a.authKey = key
              · rw [if_pos hcred] at h
                obtain rfl : user = u := by injection h
                exact ⟨rfl, key, a, rfl, hst, hcred.2⟩
              · rw [if_neg hcred] at h; simp at h
  · rintro ⟨hUu, k, a, hKk, hsta, hkey⟩
    obtain ⟨hau, hune, hkne⟩ := hinv u a hsta
    subst hUu
    subst hKk
    subst hkey
    simp [kss_auth, hune, hkne, hsta, hau]

theorem push_auth_fail (st : ServerState) (hU hK : Option String)
    (body : Option (List (String × JVal))) (now : Int)
    (h : kss_auth st hU hK = none) :
    push st hU hK body now = (kssError 401 "Unauthorized" 2001, st) := by
  unfold push
  rw [h]

theorem pull_auth_fail (st : ServerState) (hU hK : Option String)
    (document : String) (h : kss_auth st hU hK = none) :
    pull st hU hK document = kssError 401 "Unauthorized" 2001 := by
  unfold pull
  rw [h]

theorem push_success (st : ServerState) (hU hK : Option String)
    (user : String) (js : List (String × JVal)) (doc : JVal) (now : Int)
    (hauth : kss_auth st hU hK = some user)
    (hdoc : jget js "document" = some doc) (ht : truthy doc = true) :
    push st hU hK (some js) now =
      ({ httpCode := 200
         body := [("document", doc), ("timestamp", .num (now : Rat))] },
       { st with
          progress := fun u d =>
            if u = user ∧ d = pyStr doc then some (pushTransform js now)
            else st.progress u d }) := by
  simp [push, hauth, hdoc, ht]

theorem push_falsy_doc (st : ServerState) (hU hK : Option String)
    (user : String) (js : List (String × JVal)) (doc : JVal) (now : Int)
    (hauth : kss_auth st hU hK = some user)
    (hdoc : jget js "document" = some doc) (ht : truthy doc = false) :
    push st hU hK (some js) now =
      (kssError 403 "Field \x27document\x27 not provided." 2004, st) := by
  simp [push, hauth, hdoc, ht]

theorem push_no_doc (st : ServerState) (hU hK : Option String)
    (user : String) (js : List (String × JVal)) (now : Int)
    (hauth : kss_auth st hU hK = some user)
    (hdoc : jget js "document" = none) :
    push st hU hK (some js) now =
      (kssError 403 "Field \x27document\x27 not provided." 2004, st) := by
  simp [push, hauth, hdoc]

theorem pull_no_record (st : ServerState) (hU hK : Option String)
    (user document : String) (hauth : kss_auth st hU hK = some user)
    (hnone : st.progress user document = none) :
    pull st hU hK document =
      { httpCode := 200, body := [("document", .str document)] } := by
  simp [pull, hauth, hnone]

theorem pull_record (st : ServerState) (hU hK : Option String)
    (user document : String) (js : List (String × JVal))
    (hauth : kss_auth st hU hK = some user)
    (hjs : st.progress user document = some js) :
    pull st hU hK document = { httpCode := 200, body := pullAssemble js } := by
  simp [pull, hauth, hjs]

theorem register_conflict (st : ServerState) (js : List (String × JVal))
    (user pass : String) (cred : AuthRecord)
    (hu : jget js "username" = some (.str user)) (hune : user ≠ "")
    (hp : jget js "password" = some (.str pass)) (hpne : pass ≠ "")
    (hreg : st.auth user = some cred) :
    register false st (some js) =
      (kssError 402 "Username is already registered" 2002, st) := by
  simp [register, hu, hp, hune, hpne, hreg]

/-- `register` either leaves the state unchanged, or adds one credential
with a nonempty username and a nonempty password digest. -/
theorem register_state_cases (disabled : Bool) (st : ServerState)
    (body : Option (List (String × JVal))) :
    (register disabled st body).2 = st ∨
    ∃ user password, user ≠ "" ∧ password ≠ "" ∧
      (register disabled st body).2 =
        { st with auth := fun u => (if u = user then
            some { authUser := user, authKey := password } else st.auth u) } := by
  unfold register
  split
  · left; rfl
  · split
    · left; rfl
    · split
      · split
        · left; rfl
        · split
          · split
            · left; rfl
            · split
              · left; rfl
              · right
                refine ⟨_, _, ?_, ?_, rfl⟩ <;> assumption
          · left; rfl
      · left; rfl

theorem register_preserves_credOK (disabled : Bool) (st : ServerState)
    (body : Option (List (String × JVal))) (h : credOK st) :
    credOK (register disabled st body).2 := by
  rcases register_state_cases disabled st body with heq |
    ⟨user, password, hune, hpne, heq⟩
  · rw [heq]; exact h
  · rw [heq]
    intro u a ha
    have ha' : (if u = user then
        some { authUser := user, authKey := password : AuthRecord }
        else st.auth u) = some a := ha
    by_cases hu : u = user
    · rw [if_pos hu] at ha'
      have hrec : { authUser := user, authKey := password : AuthRecord }
          = a := by injection ha'
      subst hrec
      refine ⟨hu.symm, ?_, hpne⟩
      rw [hu]; exact hune
    · rw [if_neg hu] at ha'
      exact h u a ha'

theorem credOK_stAlice : credOK stAlice := by
  intro u a ha
  have ha' : (if u = "alice" then
      some { authUser := "alice", authKey := "k1" : AuthRecord }
      else none) = some a := ha
  by_cases hu : u = "alice"
  · rw [if_pos hu] at ha'
    have h2 : { authUser := "alice", authKey := "k1" : AuthRecord } = a := by
      injection ha'
    subst h2
    subst hu
    exact ⟨rfl, by decide, by decide⟩
  · rw [if_neg hu] at ha'
    exact Option.noConfusion ha'

/-! ## Lemmas: pull treats a stored null like an absent field -/

theorem jget_append_single_ne (res : List (String × JVal)) (k k' : String)
    (v : JVal) (h : k' ≠ k) :
    jget (res ++ [(k, v)]) k' = jget res k' := by
  unfold jget
  rw [List.lookup_append]
  have hbeq : (k' == k) = false := beq_eq_false_iff_ne.mpr h
  have hone : List.lookup k' [(k, v)] = none := by
    simp [List.lookup_cons, hbeq]
  rw [hone, Option.or_none]

theorem jget_pullStepPct_ne (js res : List (String × JVal)) (k : String)
    (h : k ≠ "percentage") :
    jget (pullStepPct js res) k = jget res k := by
  unfold pullStepPct
  split
  · split
    · split
      · exact jget_append_single_ne _ _ _ _ h
      · rfl
    · rfl
  · rfl

theorem jget_pullStepOpt_ne (js res : List (String × JVal)) (k k' : String)
    (h : k' ≠ k) :
    jget (pullStepOpt js res k) k' = jget res k' := by
  unfold pullStepOpt
  split
  · split
    · exact jget_append_single_ne _ _ _ _ h
    · rfl
  · rfl

theorem jget_pullStepTs_ne (js res : List (String × JVal)) (k : String)
    (h : k ≠ "timestamp") :
    jget (pullStepTs js res) k = jget res k := by
  unfold pullStepTs
  split
  · split
    · split
      · exact jget_append_single_ne _ _ _ _ h
      · rfl
    · rfl
  · rfl

theorem pullStepPct_null (js res : List (String × JVal))
    (h : jget js "percentage" = some JVal.null) :
    pullStepPct js res = res := by
  unfold pullStepPct
  rw [h]
  rfl

theorem pullStepOpt_null (js res : List (String × JVal)) (k : String)
    (h : jget js k = some JVal.null) :
    pullStepOpt js res k = res := by
  unfold pullStepOpt
  rw [h]
  rfl

/-- A field stored as null is absent from the response `pull` assembles:
null is falsy, so the field is never copied into `res`. -/
theorem jget_pullAssemble_null (js : List (String × JVal)) (k : String)
    (hk : k = "percentage" ∨ k = "progress" ∨ k = "device" ∨
      k = "device_id")
    (h : jget js k = some JVal.null) :
    jget (pullAssemble js) k = none := by
  unfold pullAssemble
  rcases hk with rfl | rfl | rfl | rfl
  · rw [jget_pullStepTs_ne _ _ _ (by decide),
      jget_pullStepOpt_ne _ _ _ _ (by decide),
      jget_pullStepOpt_ne _ _ _ _ (by decide),
      jget_pullStepOpt_ne _ _ _ _ (by decide),
      pullStepPct_null js _ h]
    rfl
  · rw [jget_pullStepTs_ne _ _ _ (by decide),
      jget_pullStepOpt_ne _ _ _ _ (by decide),
      jget_pullStepOpt_ne _ _ _ _ (by decide),
      pullStepOpt_null js _ _ h,
      jget_pullStepPct_ne _ _ _ (by decide)]
    rfl
  · rw [jget_pullStepTs_ne _ _ _ (by decide),
      jget_pullStepOpt_ne _ _ _ _ (by decide),
      pullStepOpt_null js _ _ h,
      jget_pullStepOpt_ne _ _ _ _ (by decide),
      jget_pullStepPct_ne _ _ _ (by decide)]
    rfl
  · rw [jget_pullStepTs_ne _ _ _ (by decide),
      pullStepOpt_null js _ _ h,
      jget_pullStepOpt_ne _ _ _ _ (by decide),
      jget_pullStepOpt_ne _ _ _ _ (by decide),
      jget_pullStepPct_ne _ _ _ (by decide)]
    rfl

/-! ## Claim theorems -/

/-- C1: for every byte stream and parameters `step` and `size`,
`partial_md5` reads `size` bytes starting at offset 0 into the accumulator,
then for i = 0..9 in order seeks to `step << (2*i)` and reads up to `size`
bytes, stopping the loop without accumulating as soon as a read yields zero
bytes and otherwise accumulating, and returns the digest of the
accumulator: the source function `sparseDigest` coincides with the
spec-side description `sparseDigestSpec`. -/
theorem sparse_digest_matches_spec {α : Type} (h : List Nat → α)
    (data : List Nat) (step size : Nat) :
    sparseDigest h data step size = sparseDigestSpec h data step size :=
  sparseDigest_eq_spec h data step size

/-- C2: an authenticated push with a truthy document fingerprint stores, at
(user, fingerprint), exactly the transformed request body with `timestamp`
overwritten by the server time `now` — independent of whatever was stored
before (the same value results from any other state that authenticates the
same user) — and the response echoes the fingerprint and the assigned
timestamp. -/
theorem push_overwrites_with_server_timestamp (st : ServerState)
    (hU hK : Option String) (user : String) (js : List (String × JVal))
    (doc : String) (now : Int)
    (hauth : kss_auth st hU hK = some user)
    (hdoc : jget js "document" = some (.str doc)) (hne : doc ≠ "") :
    (push st hU hK (some js) now).2.progress user doc =
        some (pushTransform js now) ∧
    jget (pushTransform js now) "timestamp" = some (.num (now : Rat)) ∧
    (∀ st2, kss_auth st2 hU hK = some user →
      (push st2 hU hK (some js) now).2.progress user doc =
        (push st hU hK (some js) now).2.progress user doc) ∧
    (push st hU hK (some js) now).1 =
      { httpCode := 200
        body := [("document", .str doc), ("timestamp", .num (now : Rat))] } := by
  have ht : truthy (JVal.str doc) = true := by simp [truthy, hne]
  have hkey : (push st hU hK (some js) now).2.progress user doc =
      some (pushTransform js now) := by
    rw [push_success st hU hK user js (.str doc) now hauth hdoc ht]
    simp [pyStr]
  refine ⟨hkey, pushTransform_timestamp js now, ?_, ?_⟩
  · intro st2 hauth2
    rw [hkey]
    rw [push_success st2 hU hK user js (.str doc) now hauth2 hdoc ht]
    simp [pyStr]
  · rw [push_success st hU hK user js (.str doc) now hauth hdoc ht]

theorem push_overwrites_with_server_timestamp_witness :
    (push stAlice (some "alice") (some "k1")
        (some [("document", JVal.str "d1"), ("timestamp", JVal.num 5)])
        100).2.progress "alice" "d1" =
      some (pushTransform
        [("document", JVal.str "d1"), ("timestamp", JVal.num 5)] 100) ∧
    jget (pushTransform
        [("document", JVal.str "d1"), ("timestamp", JVal.num 5)] 100)
      "timestamp" = some (.num (100 : Rat)) :=
  have h := push_overwrites_with_server_timestamp stAlice (some "alice")
    (some "k1") "alice" [("document", JVal.str "d1"), ("timestamp", JVal.num 5)]
    "d1" 100 (by decide) (by decide) (by decide)
  ⟨h.1, h.2.1⟩

/-- C3 (code bug): an authenticated pull of a document with a stored record
does not echo the document fingerprint (the response body is assembled from
the record fields only, contradicting the source's own comment and the
spec's API table), and a present, parsable-but-falsy field such as
percentage 0 is dropped.  With record {"percentage": 0} the whole response
body is the empty object; with {"percentage": 2} the body holds only the
percentage. -/
theorem pull_record_omits_document_and_falsy_fields :
    pull stPct0 (some "alice") (some "k1") "d1" =
      { httpCode := 200, body := [] } ∧
    pull stHalf (some "alice") (some "k1") "d2" =
      { httpCode := 200, body := [("percentage", JVal.num 2)] } :=
  ⟨by decide, by decide⟩

/-- C4 (counterexample): pushing a body {"document": "d1"} with no
progress field stores progress as null — present in the persisted record —
rather than omitting it, refuting "stored as absent (omitted from the
persisted record, not stored as null)". -/
theorem push_stores_null_not_absent_cex :
    ((push stAlice (some "alice") (some "k1")
        (some [("document", JVal.str "d1")]) 100).2.progress
      "alice" "d1").bind (fun r => jget r "progress") = some JVal.null := by
  decide

/-- C4 (amended): an authenticated push with a truthy document stores the
transformed body at (user, document); in it, each of progress, device and
device_id is null when not supplied and kept verbatim when supplied; an
absent percentage stays absent, a truthy percentage whose coercion fails
becomes null, a truthy percentage whose coercion succeeds becomes the
coerced number, and a present-but-falsy percentage is kept verbatim
without coercion; the server timestamp is always present; and a field
stored as null is an absent-equivalent for `pull`: the assembled pull
response omits any field whose stored value is null. -/
theorem push_stored_field_semantics (st : ServerState)
    (hU hK : Option String) (user : String) (js : List (String × JVal))
    (doc : JVal) (now : Int)
    (hauth : kss_auth st hU hK = some user)
    (hdoc : jget js "document" = some doc) (ht : truthy doc = true) :
    (push st hU hK (some js) now).2.progress user (pyStr doc) =
        some (pushTransform js now) ∧
    (∀ k, (k = "progress" ∨ k = "device" ∨ k = "device_id") →
      (jget js k = none →
        jget (pushTransform js now) k = some JVal.null) ∧
      (∀ w, jget js k = some w →
        jget (pushTransform js now) k = some w)) ∧
    (jget js "percentage" = none →
      jget (pushTransform js now) "percentage" = none) ∧
    (∀ p, jget js "percentage" = some p → truthy p = true →
      pyFloat p = none →
      jget (pushTransform js now) "percentage" = some JVal.null) ∧
    (∀ p q, jget js "percentage" = some p → truthy p = true →
      pyFloat p = some q →
      jget (pushTransform js now) "percentage" = some (.num q)) ∧
    (∀ p, jget js "percentage" = some p → truthy p = false →
      jget (pushTransform js now) "percentage" = some p) ∧
    jget (pushTransform js now) "timestamp" = some (.num (now : Rat)) ∧
    (∀ (r : List (String × JVal)) (k : String),
      (k = "percentage" ∨ k = "progress" ∨ k = "device" ∨
        k = "device_id") →
      jget r k = some JVal.null → jget (pullAssemble r) k = none) := by
  refine ⟨?_, ?_, ?_, ?_, ?_, ?_, pushTransform_timestamp js now, ?_⟩
  · rw [push_success st hU hK user js doc now hauth hdoc ht]
    simp
  · intro k hk
    exact ⟨fun hnone => pushTransform_optional_absent js now k hk hnone,
      fun w hw => pushTransform_optional_kept js now k w hk hw⟩
  · exact fun hnone => pushTransform_percentage_absent js now hnone
  · exact fun p hp htp hq => pushTransform_percentage_fail js now p hp htp hq
  · exact fun p q hp htp hq =>
      pushTransform_percentage_coerced js now p q hp htp hq
  · exact fun p hp htp => pushTransform_percentage_falsy js now p hp htp
  · exact fun r k hk hnull => jget_pullAssemble_null r k hk hnull

theorem push_stored_field_semantics_witness :
    jget (pushTransform
      [("document", JVal.str "d1"), ("percentage", JVal.str "abc")] 100)
      "percentage" = some JVal.null ∧
    jget (pushTransform
      [("document", JVal.str "d1"), ("percentage", JVal.str "abc")] 100)
      "progress" = some JVal.null ∧
    jget (pushTransform
      [("document", JVal.str "d1"), ("percentage", JVal.num 0)] 100)
      "percentage" = some (JVal.num 0) ∧
    jget (pullAssemble (pushTransform
      [("document", JVal.str "d1"), ("percentage", JVal.str "abc")] 100))
      "progress" = none :=
  have h := push_stored_field_semantics stAlice (some "alice") (some "k1")
    "alice" [("document", JVal.str "d1"), ("percentage", JVal.str "abc")]
    (JVal.str "d1") 100 (by decide) (by decide) (by decide)
  have h0 := push_stored_field_semantics stAlice (some "alice") (some "k1")
    "alice" [("document", JVal.str "d1"), ("percentage", JVal.num 0)]
    (JVal.str "d1") 100 (by decide) (by decide) (by decide)
  ⟨h.2.2.2.1 (JVal.str "abc") (by decide) (by decide) (by decide),
   (h.2.1 "progress" (Or.inl rfl)).1 (by decide),
   h0.2.2.2.2.2.1 (JVal.num 0) (by decide) (by decide),
   h.2.2.2.2.2.2.2 (pushTransform
       [("document", JVal.str "d1"), ("percentage", JVal.str "abc")] 100)
     "progress" (Or.inr (Or.inl rfl)) (by decide)⟩

/-- C5 (counterexample): with "alice" registered, a second registration
request for "alice" whose body lacks a password is rejected with Invalid
request (403, 2003), not AlreadyExists (402, 2002): the AlreadyExists
answer is not produced "regardless of the payload". -/
theorem register_second_missing_password_cex :
    (register false stAlice (some [("username", JVal.str "alice")])).1 =
        kssError 403 "Invalid request" 2003 ∧
    kssError 403 "Invalid request" 2003 ≠
        kssError 402 "Username is already registered" 2002 ∧
    stAlice.auth "alice" =
        some { authUser := "alice", authKey := "k1" } :=
  ⟨by decide, by decide, by decide⟩

/-- C5 (amended): with registration enabled, a second registration request
for an already-registered username whose JSON body carries truthy string
`username` and `password` fields fails with AlreadyExists (402, 2002) and
leaves the state — hence the stored credential — unchanged. -/
theorem register_existing_username_conflict (st : ServerState)
    (js : List (String × JVal)) (user pass : String) (cred : AuthRecord)
    (hu : jget js "username" = some (.str user)) (hune : user ≠ "")
    (hp : jget js "password" = some (.str pass)) (hpne : pass ≠ "")
    (hreg : st.auth user = some cred) :
    (register false st (some js)).1 =
        kssError 402 "Username is already registered" 2002 ∧
    (register false st (some js)).2 = st := by
  have h := register_conflict st js user pass cred hu hune hp hpne hreg
  exact ⟨by rw [h], by rw [h]⟩

theorem register_existing_username_conflict_witness :
    (register false stAlice
        (some [("username", JVal.str "alice"),
               ("password", JVal.str "other")])).1 =
      kssError 402 "Username is already registered" 2002 ∧
    (register false stAlice
        (some [("username", JVal.str "alice"),
               ("password", JVal.str "other")])).2 = stAlice :=
  register_existing_username_conflict stAlice
    [("username", JVal.str "alice"), ("password", JVal.str "other")]
    "alice" "other" { authUser := "alice", authKey := "k1" }
    (by decide) (by decide) (by decide) (by decide) (by decide)

/-- C6: over any state satisfying the credential-store invariant that
`register` maintains (see `register_preserves_credOK`), authentication for
push/pull succeeds exactly when the x-auth-user header is present, the
x-auth-key header is present, a credential is stored for that username and
the stored digest equals the supplied key; and in every failing case push
and pull produce the identical 401/2001 error (push leaving the state
unchanged), revealing nothing about which check failed. -/
theorem auth_iff_and_uniform_failure (st : ServerState) (hinv : credOK st) :
    (∀ hU hK u, kss_auth st hU hK = some u ↔
      (hU = some u ∧ ∃ k a, hK = some k ∧ st.auth u = some a ∧
        a.authKey = k)) ∧
    (∀ hU hK body now document, kss_auth st hU hK = none →
      push st hU hK body now = (kssError 401 "Unauthorized" 2001, st) ∧
      pull st hU hK document = kssError 401 "Unauthorized" 2001) :=
  ⟨fun hU hK u => kss_auth_some_iff st hinv hU hK u,
   fun hU hK body now document hfail =>
     ⟨push_auth_fail st hU hK body now hfail,
      pull_auth_fail st hU hK document hfail⟩⟩

theorem auth_iff_and_uniform_failure_witness :
    kss_auth stAlice (some "alice") (some "k1") = some "alice" ∧
    pull stAlice (some "alice") (some "bad") "d1" =
      kssError 401 "Unauthorized" 2001 :=
  have h := auth_iff_and_uniform_failure stAlice credOK_stAlice
  ⟨(h.1 (some "alice") (some "k1") "alice").mpr
      ⟨rfl, "k1", { authUser := "alice", authKey := "k1" }, rfl,
        by decide, rfl⟩,
   (h.2 (some "alice") (some "bad") none 0 "d1" (by decide)).2⟩

/-- C7: on a stream shorter than the sample size (with the default
step = 1024, sampleSize = 1024), the sparse digest equals the full-content
digest: the first sample covers the whole file and the sampling loop exits
on its first iteration, so the accumulated bytes are exactly the stream. -/
theorem sparse_eq_full_on_short_stream {α : Type} (h : List Nat → α)
    (data : List Nat) (hlen : data.length < 1024) :
    sparseDigest h data 1024 1024 = fullDigest h data ∧
    sparseSpecInput data 1024 1024 = data := by
  have hs := sparseSpecInput_short data hlen
  refine ⟨?_, hs⟩
  rw [sparseDigest_eq_spec, fullDigest_eq]
  unfold sparseDigestSpec
  rw [hs]

theorem sparse_eq_full_on_short_stream_witness :
    ([7] : List Nat).length < 1024 ∧
    sparseDigest (fun l => l) [7] 1024 1024 = fullDigest (fun l => l) [7] :=
  ⟨by decide,
   (sparse_eq_full_on_short_stream (fun l => l) [7] (by decide)).1⟩

/-- C8: two streams of equal length that agree on every byte of the
sampled windows (offset 0 and offsets step * 4 ^ i for i = 0..9, each of
sampleSize bytes) get the same sparse digest; and, for an injective digest
abstraction, mutating a byte that lies inside a sampled window of the
stream (defaults step = sampleSize = 1024) changes the digest. -/
theorem sparse_digest_window_sensitivity :
    (∀ (α : Type) (h : List Nat → α) (f g : List Nat) (step size : Nat),
      f.length = g.length →
      (∀ j, j < size → f[j]? = g[j]?) →
      (∀ i, i < 10 → ∀ j, j < size →
        f[step * 4 ^ i + j]? = g[step * 4 ^ i + j]?) →
      sparseDigest h f step size = sparseDigest h g step size) ∧
    (∀ (α : Type) (h : List Nat → α), Function.Injective h →
      ∀ (f : List Nat) (p b : Nat), p < f.length → f[p]? ≠ some b →
      (p < 1024 ∨ ∃ m, m < 10 ∧ 1024 * 4 ^ m ≤ p ∧
        p < 1024 * 4 ^ m + 1024) →
      sparseDigest h (f.set p b) 1024 1024 ≠
        sparseDigest h f 1024 1024) := by
  constructor
  · intro α h f g step size _ h0 hw
    rw [sparseDigest_eq_spec, sparseDigest_eq_spec]
    unfold sparseDigestSpec
    rw [sparseSpecInput_congr step size h0 hw]
  · intro α h hinj f p b hp hb hwin
    rw [sparseDigest_eq_spec, sparseDigest_eq_spec]
    unfold sparseDigestSpec
    intro he
    exact sparseSpecInput_set_ne f p b hp hb hwin (hinj he)

theorem sparse_digest_window_sensitivity_witness :
    sparseDigest (fun l => l) [1, 2, 3] 1 1 =
      sparseDigest (fun l => l) [1, 2, 9] 1 1 ∧
    sparseDigest (fun l => l) (([5] : List Nat).set 0 7) 1024 1024 ≠
      sparseDigest (fun l => l) [5] 1024 1024 :=
  have h := sparse_digest_window_sensitivity
  ⟨h.1 (List Nat) (fun l => l) [1, 2, 3] [1, 2, 9] 1 1 (by decide)
      (by decide) (by decide),
   h.2 (List Nat) (fun l => l) (fun a b hab => hab) [5] 0 7
      (by decide) (by decide) (Or.inl (by decide))⟩

/-- C9: an authenticated pull of a fingerprint with no stored record
responds 200 with a body holding only the document fingerprint — absence
is a valid outcome, not an error. -/
theorem pull_absent_record_ok (st : ServerState) (hU hK : Option String)
    (user document : String) (hauth : kss_auth st hU hK = some user)
    (hnone : st.progress user document = none) :
    pull st hU hK document =
      { httpCode := 200, body := [("document", .str document)] } :=
  pull_no_record st hU hK user document hauth hnone

theorem pull_absent_record_ok_witness :
    pull stAlice (some "alice") (some "k1") "zz" =
      { httpCode := 200, body := [("document", JVal.str "zz")] } :=
  pull_absent_record_ok stAlice (some "alice") (some "k1") "alice" "zz"
    (by decide) (by decide)

/-- C10: an authenticated push whose JSON body carries a falsy `document`
value (empty string, null, false, 0) is rejected exactly like a missing
field — 403 with code 2004, message naming the field — and the state is
unchanged (no record is written). -/
theorem push_falsy_document_rejected (st : ServerState)
    (hU hK : Option String) (user : String) (js : List (String × JVal))
    (d : JVal) (now : Int) (hauth : kss_auth st hU hK = some user)
    (hd : jget js "document" = some d) (hfalsy : truthy d = false) :
    push st hU hK (some js) now =
      (kssError 403 "Field \x27document\x27 not provided." 2004, st) :=
  push_falsy_doc st hU hK user js d now hauth hd hfalsy

theorem push_falsy_document_rejected_witness :
    push stAlice (some "alice") (some "k1")
        (some [("document", JVal.str "")]) 100 =
      (kssError 403 "Field \x27document\x27 not provided." 2004, stAlice) :=
  push_falsy_document_rejected stAlice (some "alice") (some "k1") "alice"
    [("document", JVal.str "")] (JVal.str "") 100
    (by decide) (by decide) (by decide)
